import Mathlib

/-!
Verification of the day-scoped upsert and period-aggregation core of the
digital-tere journaling service.

The definitions below are a shallow embedding of the TypeScript source:
`src/server/db.ts` (storage operations), the tRPC router
(`appRouter`: diary / habits / habitCompletions / mood / insights
procedures) and the client-side display aggregation in
`src/client/src/pages/InsightsPage.tsx`.

Modelling conventions:
- A JS `Date` is modelled by `Instant`: the local calendar fields
  (year, month, day) plus the millisecond-of-day.  `setHours(0,0,0,0)` /
  `setHours(23,59,59,999)` act on exactly these fields, so the local
  day-bucket computation is faithful.  Timestamp comparison (the SQL
  `gte`/`lte` on the `date` column) is the lexicographic order on the
  fields.
- A table is a `List` of row structures; `select ... limit 1` is
  `List.find?`, `update ... where id = x` maps over the list, `insert`
  appends.  The lazily-initialised drizzle handle (`getDb`, which can be
  `null`) is an `Option` around the row list; each `db.ts` function
  checks it exactly as the source does (return `undefined` / `[]`, or
  throw `Database not available`).
- JS numbers reaching the core are modelled as `ℚ` where fractional
  values are observable (mood intensity), `Nat` for ids.
- `Array.prototype.sort` (spec-mandated stable since ES2019) with a
  consistent comparator is modelled by a stable insertion sort; a JS
  object used as a counter map is an insertion-ordered association list,
  matching `Object.entries` enumeration order.
- Thrown JS errors are an `Except`; a `TRPCError` and a plain `Error`
  are distinguished by the two `OpError` constructors.
-/

namespace DigitalTere

/-- Local calendar fields of a JS `Date` plus millisecond of the day. -/
structure Instant where
  year : Nat
  month : Nat
  day : Nat
  msOfDay : Nat
deriving DecidableEq, Repr

/-- Timestamp order: lexicographic on local calendar fields. -/
def Instant.le (a b : Instant) : Bool :=
  if a.year = b.year then
    if a.month = b.month then
      if a.day = b.day then decide (a.msOfDay ≤ b.msOfDay)
      else decide (a.day < b.day)
    else decide (a.month < b.month)
  else decide (a.year < b.year)

/-- A real instant has a millisecond-of-day below 24h. -/
def Instant.wf (t : Instant) : Prop := t.msOfDay ≤ 86399999

instance (t : Instant) : Decidable t.wf :=
  inferInstanceAs (Decidable (t.msOfDay ≤ 86399999))

/-- Model of `new Date(d); d.setHours(0, 0, 0, 0)`. -/
def startOfDay (d : Instant) : Instant := { d with msOfDay := 0 }

/-- Model of `new Date(d); d.setHours(23, 59, 59, 999)`. -/
def endOfDay (d : Instant) : Instant := { d with msOfDay := 86399999 }

/-- The day-bucket test: stored `date` within `[startOfDay, endOfDay]`. -/
def inDayWindow (d t : Instant) : Bool := (startOfDay d).le t && t.le (endOfDay d)

/-- Two instants on the same local calendar day. -/
def sameDay (a b : Instant) : Bool := a.year == b.year && a.month == b.month && a.day == b.day

theorem Instant.le_total (a b : Instant) : a.le b = true ∨ b.le a = true := by
  unfold Instant.le
  split_ifs <;> simp_all <;> omega

theorem Instant.le_trans {a b c : Instant} (h1 : a.le b = true) (h2 : b.le c = true) :
    a.le c = true := by
  unfold Instant.le at *
  split_ifs at * <;> simp_all <;> omega

theorem inDayWindow_iff_sameDay {d t : Instant} (ht : t.wf) :
    inDayWindow d t = true ↔ (d.year = t.year ∧ d.month = t.month ∧ d.day = t.day) := by
  unfold Instant.wf at ht
  simp only [inDayWindow, startOfDay, endOfDay, Instant.le, Bool.and_eq_true]
  split_ifs <;> simp_all <;> omega

theorem inDayWindow_congr {d d' : Instant} (t : Instant)
    (hy : d.year = d'.year) (hm : d.month = d'.month) (hd : d.day = d'.day) :
    inDayWindow d t = inDayWindow d' t := by
  simp only [inDayWindow, startOfDay, endOfDay, Instant.le, hy, hm, hd]

/-- Stable insertion: `x` goes in front of the first `y` it may precede.
For a consistent comparator this reproduces the result of the stable
`Array.prototype.sort` used in the source. -/
def insertStable (le : α → α → Bool) (x : α) : List α → List α
  | [] => [x]
  | y :: ys => if le x y then x :: y :: ys else y :: insertStable le x ys

/-- Stable sort modelling `Array.prototype.sort` with comparator `le`. -/
def sortStable (le : α → α → Bool) : List α → List α
  | [] => []
  | x :: xs => insertStable le x (sortStable le xs)

theorem mem_insertStable (le : α → α → Bool) (x a : α) (l : List α) :
    a ∈ insertStable le x l ↔ a = x ∨ a ∈ l := by
  induction l with
  | nil => simp [insertStable]
  | cons y ys ih =>
      unfold insertStable
      split_ifs <;> simp [ih] <;> tauto

theorem mem_sortStable (le : α → α → Bool) (a : α) (l : List α) :
    a ∈ sortStable le l ↔ a ∈ l := by
  induction l with
  | nil => simp [sortStable]
  | cons x xs ih => simp [sortStable, mem_insertStable, ih]

theorem pairwise_insertStable (le : α → α → Bool)
    (htot : ∀ a b, le a b = true ∨ le b a = true)
    (htrans : ∀ a b c, le a b = true → le b c = true → le a c = true)
    (x : α) (l : List α) (hl : l.Pairwise (fun a b => le a b = true)) :
    (insertStable le x l).Pairwise (fun a b => le a b = true) := by
  induction l with
  | nil => simp [insertStable]
  | cons y ys ih =>
      unfold insertStable
      rcases List.pairwise_cons.mp hl with ⟨hy, hys⟩
      split_ifs with hxy
      · refine List.pairwise_cons.mpr ⟨?_, hl⟩
        intro b hb
        rcases List.mem_cons.mp hb with rfl | hb
        · exact hxy
        · exact htrans x y b hxy (hy b hb)
      · refine List.pairwise_cons.mpr ⟨?_, ih hys⟩
        intro b hb
        rcases (mem_insertStable le x b ys).mp hb with he | hb
        · subst he
          rcases htot b y with h | h
          · exact absurd h hxy
          · exact h
        · exact hy b hb

theorem pairwise_sortStable (le : α → α → Bool)
    (htot : ∀ a b, le a b = true ∨ le b a = true)
    (htrans : ∀ a b c, le a b = true → le b c = true → le a c = true)
    (l : List α) : (sortStable le l).Pairwise (fun a b => le a b = true) := by
  induction l with
  | nil => simp [sortStable]
  | cons x xs ih => exact pairwise_insertStable le htot htrans x (sortStable le xs) ih

/-- A thrown failure: either a `TRPCError` (code, optional message) or a
plain JS `Error` with a message. -/
inductive OpError where
  | trpc (code : String) (message : Option String)
  | thrown (message : String)
deriving DecidableEq, Repr

/-- Row of the `mood_history` table.  The `mood` and `moodIntensity`
columns are read defensively by the aggregation, so they are `Option`
here; intensity is a JS number, modelled as `ℚ`. -/
structure MoodRow where
  id : Nat
  userId : Nat
  date : Instant
  mood : Option String
  moodIntensity : Option ℚ
  notes : Option String
deriving DecidableEq, Repr

/-- Row of the `habit_completions` table. -/
structure HabitCompletionRow where
  id : Nat
  habitId : Nat
  userId : Nat
  date : Instant
  completed : Nat
  completedAt : Option Instant
deriving DecidableEq, Repr

/-- Row of the `habits` table (`isActive`: 1 = active, 0 = archived). -/
structure HabitRow where
  id : Nat
  userId : Nat
  name : String
  description : Option String
  color : Option String
  icon : Option String
  createdAt : Instant
  isActive : Nat
deriving DecidableEq, Repr

/-- Row of the `diary_entries` table (the fields the router touches). -/
structure DiaryRow where
  id : Nat
  userId : Nat
  title : Option String
  content : Option String
  date : Instant
deriving DecidableEq, Repr

/-- Row of the `mood_insights` table as built by `generateInsights`.
`moodDistribution` is the insertion-ordered counter object;
`topHabitsCorrelation` is the serialized (id, name) list. -/
structure MoodInsightRow where
  userId : Nat
  period : String
  periodStart : Instant
  periodEnd : Instant
  averageMoodScore : String
  dominantMood : String
  moodDistribution : List (String × Nat)
  topHabitsCorrelation : List (Nat × String)
  insights : String
deriving DecidableEq, Repr

/-- The `WHERE userId = ... AND date BETWEEN startOfDay AND endOfDay`
predicate of the mood day-bucket lookup. -/
def moodDayMatches (userId : Nat) (date : Instant) (r : MoodRow) : Bool :=
  r.userId == userId && inDayWindow date r.date

/-- The corresponding predicate for habit completions: owning key is
(habitId, userId). -/
def habitDayMatches (habitId userId : Nat) (date : Instant) (r : HabitCompletionRow) : Bool :=
  r.habitId == habitId && r.userId == userId && inDayWindow date r.date

/-- Update-branch field assignment of `upsertMoodHistory`:
`set({ mood, moodIntensity, notes })`.  `notes` is `string | undefined`;
drizzle skips `undefined` values in `set`, leaving the column unchanged. -/
def setMoodFields (mood : String) (moodIntensity : ℚ) (notes : Option String) (r : MoodRow) :
    MoodRow :=
  { r with mood := some mood, moodIntensity := some moodIntensity,
           notes := match notes with | some n => some n | none => r.notes }

/-- Core of `db.upsertMoodHistory` on the row list: find the first row of
the user in the day window of `date`; update its payload in place, else
insert a row with the original unbucketed `date`.  `nextId` stands for
the auto-increment id of the insert branch. -/
def upsertMoodHistoryList (rows : List MoodRow) (nextId userId : Nat) (date : Instant)
    (mood : String) (moodIntensity : ℚ) (notes : Option String) : List MoodRow :=
  match rows.find? (moodDayMatches userId date) with
  | some ex => rows.map (fun r => if r.id == ex.id then setMoodFields mood moodIntensity notes r else r)
  | none => rows ++ [⟨nextId, userId, date, some mood, some moodIntensity, notes⟩]

/-- Update-branch field assignment of `upsertHabitCompletion`:
`set({ completed: c ? 1 : 0, completedAt: c ? new Date() : null })`. -/
def setCompletionFields (completed : Bool) (now : Instant) (r : HabitCompletionRow) :
    HabitCompletionRow :=
  { r with completed := if completed then 1 else 0,
           completedAt := if completed then some now else none }

/-- Core of `db.upsertHabitCompletion` on the row list; `now` models the
`new Date()` used for the completion timestamp. -/
def upsertHabitCompletionList (rows : List HabitCompletionRow) (nextId habitId userId : Nat)
    (date : Instant) (completed : Bool) (now : Instant) : List HabitCompletionRow :=
  match rows.find? (habitDayMatches habitId userId date) with
  | some ex => rows.map (fun r => if r.id == ex.id then setCompletionFields completed now r else r)
  | none => rows ++ [⟨nextId, habitId, userId, date,
                      if completed then 1 else 0, if completed then some now else none⟩]

/-- `db.getMoodHistoryByDate`: returns `undefined` when the db handle is
null, otherwise the first row of the user in the day window. -/
def getMoodHistoryByDate (db : Option (List MoodRow)) (userId : Nat) (date : Instant) :
    Option MoodRow :=
  match db with
  | none => none
  | some rows => rows.find? (moodDayMatches userId date)

/-- `db.getMoodHistoryByDateRange`: `[]` when the db handle is null,
otherwise the user's rows with `date` in `[startDate, endDate]`,
`ORDER BY date DESC`. -/
def getMoodHistoryByDateRange (db : Option (List MoodRow)) (userId : Nat)
    (startDate endDate : Instant) : List MoodRow :=
  match db with
  | none => []
  | some rows =>
      sortStable (fun a b => Instant.le b.date a.date)
        (rows.filter (fun r => r.userId == userId && startDate.le r.date && r.date.le endDate))

/-- `db.upsertMoodHistory` including the null-handle check: throws
`Database not available` when storage is unreachable. -/
def upsertMoodHistory (db : Option (List MoodRow)) (nextId userId : Nat) (date : Instant)
    (mood : String) (moodIntensity : ℚ) (notes : Option String) :
    Except OpError (List MoodRow) :=
  match db with
  | none => .error (.thrown "Database not available")
  | some rows => .ok (upsertMoodHistoryList rows nextId userId date mood moodIntensity notes)

/-- `db.upsertHabitCompletion` including the null-handle check. -/
def upsertHabitCompletion (db : Option (List HabitCompletionRow)) (nextId habitId userId : Nat)
    (date : Instant) (completed : Bool) (now : Instant) :
    Except OpError (List HabitCompletionRow) :=
  match db with
  | none => .error (.thrown "Database not available")
  | some rows => .ok (upsertHabitCompletionList rows nextId habitId userId date completed now)

/-- `db.getHabitsByUser`: `[]` when the handle is null, otherwise the
user's active habits ordered by `createdAt`. -/
def getHabitsByUser (db : Option (List HabitRow)) (userId : Nat) : List HabitRow :=
  match db with
  | none => []
  | some rows =>
      sortStable (fun a b => Instant.le a.createdAt b.createdAt)
        (rows.filter (fun r => r.userId == userId && r.isActive == 1))

/-- Optional update payload of `db.updateHabit` (absent = `undefined`,
skipped by drizzle's `set`). -/
structure HabitUpdate where
  name : Option String
  description : Option String
  color : Option String
  icon : Option String
  isActive : Option Nat
deriving DecidableEq, Repr

/-- Apply a `set` payload to one habit row, skipping absent fields. -/
def applyHabitUpdate (u : HabitUpdate) (r : HabitRow) : HabitRow :=
  { r with
      name := match u.name with | some v => v | none => r.name,
      description := match u.description with | some v => some v | none => r.description,
      color := match u.color with | some v => some v | none => r.color,
      icon := match u.icon with | some v => some v | none => r.icon,
      isActive := match u.isActive with | some v => v | none => r.isActive }

/-- `db.updateHabit`: `UPDATE habits SET ... WHERE id = id`; no owner
condition appears in the query. -/
def updateHabit (db : Option (List HabitRow)) (id : Nat) (u : HabitUpdate) :
    Except OpError (List HabitRow) :=
  match db with
  | none => .error (.thrown "Database not available")
  | some rows => .ok (rows.map (fun r => if r.id == id then applyHabitUpdate u r else r))

/-- `db.getDiaryEntryByDate`: first diary row of the user in the day
window, `undefined` when the handle is null. -/
def getDiaryEntryByDate (db : Option (List DiaryRow)) (userId : Nat) (date : Instant) :
    Option DiaryRow :=
  match db with
  | none => none
  | some rows =>
      rows.find? (fun r => r.userId == userId && inDayWindow date r.date)

/-- `db.updateDiaryEntry`: `UPDATE diary_entries SET title, content WHERE
id = id` (absent fields skipped by drizzle). -/
def updateDiaryEntry (db : Option (List DiaryRow)) (id : Nat)
    (title content : Option String) : Except OpError (List DiaryRow) :=
  match db with
  | none => .error (.thrown "Database not available")
  | some rows => .ok (rows.map (fun r =>
      if r.id == id then
        { r with title := match title with | some v => some v | none => r.title,
                 content := match content with | some v => some v | none => r.content }
      else r))

/-- `db.createMoodInsight`: insert, throwing when the handle is null. -/
def createMoodInsight (db : Option (List MoodInsightRow)) (insight : MoodInsightRow) :
    Except OpError (List MoodInsightRow) :=
  match db with
  | none => .error (.thrown "Database not available")
  | some rows => .ok (rows ++ [insight])

/-- JS counter-object increment `obj[k] = (obj[k] || 0) + 1` on an
insertion-ordered association list: bump an existing key in place,
otherwise append it with count 1. -/
def bump (counts : List (String × Nat)) (k : String) : List (String × Nat) :=
  if counts.any (fun e => e.1 == k) then
    counts.map (fun e => if e.1 = k then (e.1, e.2 + 1) else e)
  else counts ++ [(k, 1)]

/-- `m.mood || "unknown"`: a missing (or falsy, i.e. empty) category is
bucketed as `unknown`. -/
def categoryOrUnknown (mood : Option String) : String :=
  match mood with
  | some s => if s = "" then "unknown" else s
  | none => "unknown"

/-- The mood-count accumulation loop of `insights.generateInsights`; the
counter object starts empty. -/
def moodCountsOf (moods : List MoodRow) : List (String × Nat) :=
  moods.foldl (fun c m => bump c (categoryOrUnknown m.mood)) []

/-- The running intensity total: `totalIntensity += m.moodIntensity || 0`. -/
def totalIntensityOf (moods : List MoodRow) : ℚ :=
  moods.foldl (fun t m => t + m.moodIntensity.getD 0) 0

/-- Comparator of `Object.entries(moodCounts).sort(([, a], [, b]) => b - a)`:
entry `a` may precede entry `b` when its count is at least as large. -/
def countGe (a b : String × Nat) : Bool := decide (b.2 ≤ a.2)

/-- `sort(...)[0]?.[0] || "neutral"`: key of the first entry of the
stable descending sort, `neutral` when the object is empty (or the key
falsy). -/
def dominantOf (counts : List (String × Nat)) : String :=
  match (sortStable countGe counts).head? with
  | some e => if e.1 = "" then "neutral" else e.1
  | none => "neutral"

/-- Render a count of hundredths as a fixed-point decimal with a
2-digit fraction. -/
def fix2str (n : ℤ) : String :=
  toString (n / 100) ++ "." ++
    (if n % 100 < 10 then "0" ++ toString (n % 100) else toString (n % 100))

/-- `Number.prototype.toFixed(2)` on the nonnegative averages produced
here: round half away from zero to 2 decimal places, rendered with a
2-digit fraction. -/
def toFixed2 (q : ℚ) : String := fix2str ⌊q * 100 + 1 / 2⌋

/-- The template sentence of `insights.generateInsights`. -/
def summaryText (period dominantMood averageMoodScore : String) (count : Nat) : String :=
  "During this " ++ period ++ ", your dominant mood was " ++ dominantMood ++
    " with an average intensity of " ++ averageMoodScore ++ "/10. You tracked " ++
    toString count ++ " mood entries."

/-- The `insights.generateInsights` mutation: fetch the period's moods
(newest first) and the active habits, reject with `BAD_REQUEST` when no
mood data exists, otherwise aggregate and persist a `mood_insights` row.
Returns the resulting insight store next to the client-visible result;
on any error the store is unchanged. -/
def generateInsights (moodDb : Option (List MoodRow)) (habitDb : Option (List HabitRow))
    (insightDb : Option (List MoodInsightRow)) (userId : Nat) (period : String)
    (periodStart periodEnd : Instant) :
    Option (List MoodInsightRow) × Except OpError MoodInsightRow :=
  let moods := getMoodHistoryByDateRange moodDb userId periodStart periodEnd
  let habits := getHabitsByUser habitDb userId
  if moods.length = 0 then
    (insightDb, .error (.trpc "BAD_REQUEST" (some "No mood data available for this period")))
  else
    let moodCounts := moodCountsOf moods
    let averageMoodScore := toFixed2 (totalIntensityOf moods / (moods.length : ℚ))
    let dominantMood := dominantOf moodCounts
    let insight : MoodInsightRow :=
      { userId, period, periodStart, periodEnd, averageMoodScore, dominantMood,
        moodDistribution := moodCounts,
        topHabitsCorrelation := (habits.take 3).map (fun h => (h.id, h.name)),
        insights := summaryText period dominantMood averageMoodScore moods.length }
    match createMoodInsight insightDb insight with
    | .ok newDb => (some newDb, .ok insight)
    | .error e => (insightDb, .error e)

/-- The five mood categories of the `z.enum` on `mood.record` (also the
`mysqlEnum` declaration order of the schema). -/
def moodCategories : List String := ["excellent", "good", "neutral", "sad", "terrible"]

/-- Input validation of `mood.record`:
`z.enum(["excellent", ...])` and `z.number().min(1).max(10)` — the
intensity is only bounded, not required to be an integer. -/
def moodRecordAccepts (category : String) (intensity : ℚ) : Bool :=
  moodCategories.contains category && decide (1 ≤ intensity) && decide (intensity ≤ 10)

/-- The `mood.record` mutation: tRPC rejects the call with a
`BAD_REQUEST` validation error before the handler runs when the input
fails the zod schema; otherwise the day-bucket upsert executes. -/
def moodRecord (db : Option (List MoodRow)) (nextId userId : Nat) (date : Instant)
    (category : String) (intensity : ℚ) (notes : Option String) :
    Option (List MoodRow) × Except OpError Unit :=
  if moodRecordAccepts category intensity then
    match upsertMoodHistory db nextId userId date category intensity notes with
    | .ok rows => (some rows, .ok ())
    | .error e => (db, .error e)
  else (db, .error (.trpc "BAD_REQUEST" none))

/-- The `diary.update` mutation: fetch the caller's entry for the
current day; reject with `FORBIDDEN` unless its id matches the input id,
otherwise update title/content.  On error the store is unchanged. -/
def diaryUpdate (db : Option (List DiaryRow)) (callerId : Nat) (now : Instant) (id : Nat)
    (title content : Option String) : Option (List DiaryRow) × Except OpError Unit :=
  match getDiaryEntryByDate db callerId now with
  | none => (db, .error (.trpc "FORBIDDEN" none))
  | some entry =>
      if entry.id = id then
        match updateDiaryEntry db id title content with
        | .ok rows => (some rows, .ok ())
        | .error e => (db, .error e)
      else (db, .error (.trpc "FORBIDDEN" none))

/-- The `habits.update` mutation: forwards to `db.updateHabit` keyed by
the input id alone; the caller's identity is not consulted. -/
def habitsUpdate (db : Option (List HabitRow)) (callerId : Nat) (id : Nat)
    (name description color icon : Option String) :
    Option (List HabitRow) × Except OpError Unit :=
  match updateHabit db id ⟨name, description, color, icon, none⟩ with
  | .ok rows => (some rows, .ok ())
  | .error e => (db, .error e)

/-- The `habits.archive` mutation: `db.updateHabit(id, { isActive: 0 })`,
again without consulting the caller's identity. -/
def habitsArchive (db : Option (List HabitRow)) (callerId : Nat) (id : Nat) :
    Option (List HabitRow) × Except OpError Unit :=
  match updateHabit db id ⟨none, none, none, none, some 0⟩ with
  | .ok rows => (some rows, .ok ())
  | .error e => (db, .error e)

/-- Initial counter object of the display aggregation in
`InsightsPage`: every known category starts at 0. -/
def clientInitialCounts : List (String × Nat) :=
  [("excellent", 0), ("good", 0), ("neutral", 0), ("sad", 0), ("terrible", 0)]

/-- `InsightsPage` count loop: `if (m.mood) moodCounts[m.mood] += 1`
(falsy categories are skipped, unlike the server's `unknown` bucket). -/
def clientMoodCounts (moods : List MoodRow) : List (String × Nat) :=
  moods.foldl
    (fun c m => match m.mood with
      | some s => if s = "" then c else bump c s
      | none => c)
    clientInitialCounts

/-- Short month names of `toLocaleDateString("en-US", { month: "short" })`. -/
def monthShort (m : Nat) : String :=
  match m with
  | 1 => "Jan"
  | 2 => "Feb"
  | 3 => "Mar"
  | 4 => "Apr"
  | 5 => "May"
  | 6 => "Jun"
  | 7 => "Jul"
  | 8 => "Aug"
  | 9 => "Sep"
  | 10 => "Oct"
  | 11 => "Nov"
  | 12 => "Dec"
  | _ => ""

/-- The per-day grouping key of the trend chart:
`toLocaleDateString("en-US", { month: "short", day: "numeric" })` — note
that the year is not part of the label. -/
def dayLabel (t : Instant) : String := monthShort t.month ++ " " ++ toString t.day

/-- Accumulate a JS number into the counter object under key `k`. -/
def bumpBy (l : List (String × ℚ)) (k : String) (v : ℚ) : List (String × ℚ) :=
  if l.any (fun e => e.1 == k) then
    l.map (fun e => if e.1 = k then (e.1, e.2 + v) else e)
  else l ++ [(k, v)]

/-- `dailyData`: sum of `moodIntensity || 0` per day label. -/
def dailyData (moods : List MoodRow) : List (String × ℚ) :=
  moods.foldl (fun d m => bumpBy d (dayLabel m.date) (m.moodIntensity.getD 0)) []

/-- `parseFloat(x.toFixed(1))` on the nonnegative per-day averages:
round half away from zero to one decimal place. -/
def roundTo1 (q : ℚ) : ℚ := (⌊q * 10 + 1 / 2⌋ : ℚ) / 10

/-- `trendData`: each day label mapped to the rounded average intensity,
dividing by the number of records sharing the label (`|| 1` guards the
impossible zero denominator). -/
def trendData (moods : List MoodRow) : List (String × ℚ) :=
  (dailyData moods).map (fun e =>
    (e.1,
      roundTo1 (e.2 /
        (let c := (moods.filter (fun m => dayLabel m.date == e.1)).length
         if c = 0 then 1 else (c : ℚ)))))

/-- First maximal entry of a counter list: the entry with the largest
count whose first occurrence comes earliest. -/
def firstMax : List (String × Nat) → Option (String × Nat)
  | [] => none
  | x :: xs =>
      match firstMax xs with
      | none => some x
      | some m => some (if m.2 ≤ x.2 then x else m)

theorem insertStable_head? (le : α → α → Bool) (x : α) (l : List α) :
    (insertStable le x l).head? =
      some (match l.head? with
            | none => x
            | some y => if le x y then x else y) := by
  cases l with
  | nil => rfl
  | cons y ys =>
      unfold insertStable
      split_ifs with h <;> simp [h]

theorem sortStable_countGe_head (l : List (String × Nat)) :
    (sortStable countGe l).head? = firstMax l := by
  induction l with
  | nil => rfl
  | cons x xs ih =>
      unfold sortStable firstMax
      rw [insertStable_head?, ih]
      cases hfm : firstMax xs with
      | none => rfl
      | some m => simp [countGe]

theorem firstMax_eq_none_iff (l : List (String × Nat)) : firstMax l = none ↔ l = [] := by
  cases l with
  | nil => simp [firstMax]
  | cons x xs =>
      unfold firstMax
      cases firstMax xs <;> simp

theorem firstMax_is_max (l : List (String × Nat)) (m : String × Nat)
    (h : firstMax l = some m) : ∀ e ∈ l, e.2 ≤ m.2 := by
  induction l generalizing m with
  | nil => simp [firstMax] at h
  | cons x xs ih =>
      unfold firstMax at h
      cases hfm : firstMax xs with
      | none =>
          rw [hfm] at h
          rcases (firstMax_eq_none_iff xs).mp hfm with rfl
          simp at h
          simp [← h]
      | some m' =>
          rw [hfm] at h
          simp only [Option.some.injEq] at h
          intro e he
          rcases List.mem_cons.mp he with rfl | he
          · subst h
            split_ifs
            · exact le_refl _
            · omega
          · have := ih m' hfm e he
            subst h
            split_ifs with hc
            · omega
            · exact this

theorem firstMax_is_first (l : List (String × Nat)) (m : String × Nat)
    (h : firstMax l = some m) :
    ∃ pre post, l = pre ++ m :: post ∧ ∀ e ∈ pre, e.2 < m.2 := by
  induction l generalizing m with
  | nil => simp [firstMax] at h
  | cons x xs ih =>
      unfold firstMax at h
      cases hfm : firstMax xs with
      | none =>
          rw [hfm] at h
          simp at h
          exact ⟨[], xs, by simp [h], by simp⟩
      | some m' =>
          rw [hfm] at h
          simp only [Option.some.injEq] at h
          split_ifs at h with hc
          · exact ⟨[], xs, by simp [h], by simp⟩
          · subst h
            rcases ih m' hfm with ⟨pre, post, hsplit, hlt⟩
            refine ⟨x :: pre, post, by simp [hsplit], ?_⟩
            intro e he
            rcases List.mem_cons.mp he with rfl | he
            · omega
            · exact hlt e he

/-- C2, counterexample: in `insights.generateInsights`, aggregating one
`excellent` and one `good` record where the `good` record is newer (so
is encountered first in the descending fetch order) yields dominant
category `good`, not `excellent`: the tie is not broken by the fixed
declaration order. -/
theorem dominant_tie_order_counterexample :
    ((generateInsights
        (some [⟨1, 7, ⟨2026, 3, 10, 0⟩, some "excellent", some 5, none⟩,
               ⟨2, 7, ⟨2026, 3, 11, 0⟩, some "good", some 5, none⟩])
        (some []) (some []) 7 "week" ⟨2026, 3, 1, 0⟩ ⟨2026, 3, 31, 86399999⟩).2.map
      (fun r => r.dominantMood)) = Except.ok "good" ∧ ("good" : String) ≠ "excellent" := by
  exact ⟨rfl, by decide⟩

/-- C2, amended: the dominant category is the entry of the (insertion
ordered, i.e. first-encounter ordered) counter object with the maximum
count whose first occurrence comes earliest; in particular a tie between
`excellent` and `good` goes to whichever category occurs first in the
processed list, not to the first-declared category. -/
theorem dominant_tie_first_encounter :
    (∀ (moods : List MoodRow) (m : String × Nat),
        firstMax (moodCountsOf moods) = some m →
        dominantOf (moodCountsOf moods) = (if m.1 = "" then "neutral" else m.1) ∧
        (∀ e ∈ moodCountsOf moods, e.2 ≤ m.2) ∧
        (∃ pre post, moodCountsOf moods = pre ++ m :: post ∧ ∀ e ∈ pre, e.2 < m.2)) ∧
    dominantOf (moodCountsOf
      [⟨2, 7, ⟨2026, 3, 11, 0⟩, some "good", some 5, none⟩,
       ⟨1, 7, ⟨2026, 3, 10, 0⟩, some "excellent", some 5, none⟩]) = "good" ∧
    dominantOf (moodCountsOf
      [⟨1, 7, ⟨2026, 3, 10, 0⟩, some "excellent", some 5, none⟩,
       ⟨2, 7, ⟨2026, 3, 11, 0⟩, some "good", some 5, none⟩]) = "excellent" := by
  refine ⟨?_, by decide, by decide⟩
  intro moods m h
  refine ⟨?_, firstMax_is_max _ m h, firstMax_is_first _ m h⟩
  unfold dominantOf
  rw [sortStable_countGe_head, h]

/-- C2 witness: the general tie-break characterization applied to a
concrete aggregation. -/
theorem dominant_tie_first_encounter_witness :
    dominantOf (moodCountsOf [⟨1, 7, ⟨2026, 3, 10, 0⟩, some "good", some 5, none⟩]) =
      (if ("good" : String) = "" then "neutral" else "good") :=
  (dominant_tie_first_encounter.1
    [⟨1, 7, ⟨2026, 3, 10, 0⟩, some "good", some 5, none⟩] ("good", 1) (by decide)).1

/-- C3, counterexample: for the mood list [good/7, good/5, sad/3] the
persisted distribution object has no entry at all for `excellent` (the
counter starts empty and is not initialized with the five categories at
zero), contradicting the claimed `0` entry for every other category. -/
theorem insight_counts_no_zero_init_counterexample :
    ((generateInsights
        (some [⟨1, 7, ⟨2026, 3, 12, 36000000⟩, some "good", some 7, none⟩,
               ⟨2, 7, ⟨2026, 3, 11, 50000000⟩, some "good", some 5, none⟩,
               ⟨3, 7, ⟨2026, 3, 10, 20000000⟩, some "sad", some 3, none⟩])
        (some []) (some []) 7 "week" ⟨2026, 3, 1, 0⟩ ⟨2026, 3, 31, 86399999⟩).2.map
      (fun r => r.moodDistribution.lookup "excellent")) = Except.ok none ∧
    (none : Option Nat) ≠ some 0 := by
  exact ⟨rfl, by decide⟩

/-- C3, amended: aggregating [good/7, good/5, sad/3] over a week yields
the distribution {good: 2, sad: 1} (only categories actually observed
appear; nothing is pre-initialized to 0), averageMoodScore "5.00",
dominant category `good` and exactly the claimed summary sentence; a
record with a missing category is counted under `unknown`. -/
theorem insight_week_example :
    (generateInsights
        (some [⟨1, 7, ⟨2026, 3, 12, 36000000⟩, some "good", some 7, none⟩,
               ⟨2, 7, ⟨2026, 3, 11, 50000000⟩, some "good", some 5, none⟩,
               ⟨3, 7, ⟨2026, 3, 10, 20000000⟩, some "sad", some 3, none⟩])
        (some []) (some []) 7 "week" ⟨2026, 3, 1, 0⟩ ⟨2026, 3, 31, 86399999⟩).2 =
      Except.ok
        { userId := 7, period := "week",
          periodStart := ⟨2026, 3, 1, 0⟩, periodEnd := ⟨2026, 3, 31, 86399999⟩,
          averageMoodScore := "5.00", dominantMood := "good",
          moodDistribution := [("good", 2), ("sad", 1)],
          topHabitsCorrelation := [],
          insights := "During this week, your dominant mood was good with an average intensity of 5.00/10. You tracked 3 mood entries." } ∧
    moodCountsOf [⟨1, 7, ⟨2026, 3, 10, 0⟩, none, some 5, none⟩] = [("unknown", 1)] := by
  refine ⟨?_, rfl⟩
  have hmoods : getMoodHistoryByDateRange
      (some [⟨1, 7, ⟨2026, 3, 12, 36000000⟩, some "good", some 7, none⟩,
             ⟨2, 7, ⟨2026, 3, 11, 50000000⟩, some "good", some 5, none⟩,
             ⟨3, 7, ⟨2026, 3, 10, 20000000⟩, some "sad", some 3, none⟩])
      7 ⟨2026, 3, 1, 0⟩ ⟨2026, 3, 31, 86399999⟩ =
      [⟨1, 7, ⟨2026, 3, 12, 36000000⟩, some "good", some 7, none⟩,
       ⟨2, 7, ⟨2026, 3, 11, 50000000⟩, some "good", some 5, none⟩,
       ⟨3, 7, ⟨2026, 3, 10, 20000000⟩, some "sad", some 3, none⟩] := by decide
  have havg : toFixed2 (totalIntensityOf
      [⟨1, 7, ⟨2026, 3, 12, 36000000⟩, some "good", some 7, none⟩,
       ⟨2, 7, ⟨2026, 3, 11, 50000000⟩, some "good", some 5, none⟩,
       ⟨3, 7, ⟨2026, 3, 10, 20000000⟩, some "sad", some 3, none⟩] / ((3 : Nat) : ℚ)) = "5.00" := by
    have h15 : totalIntensityOf
        [⟨1, 7, ⟨2026, 3, 12, 36000000⟩, some "good", some 7, none⟩,
         ⟨2, 7, ⟨2026, 3, 11, 50000000⟩, some "good", some 5, none⟩,
         ⟨3, 7, ⟨2026, 3, 10, 20000000⟩, some "sad", some 3, none⟩] = 15 := by
      simp [totalIntensityOf]
      norm_num
    rw [h15]
    unfold toFixed2
    rw [show (⌊(15 : ℚ) / ((3 : Nat) : ℚ) * 100 + 1 / 2⌋ : ℤ) = 500 by norm_num]
    decide
  unfold generateInsights
  rw [hmoods]
  simp only [List.length_cons, List.length_nil]
  rw [if_neg (by decide : ¬(3 = 0))]
  rw [show ((0 + 1 + 1 + 1 : Nat) : ℚ) = ((3 : Nat) : ℚ) by norm_num]
  rw [havg]
  rfl

/-- C4: when the range fetch for the period returns no mood records,
`insights.generateInsights` rejects with BAD_REQUEST "No mood data
available for this period" and the insight store is untouched. -/
theorem generateInsights_empty_rejects
    (moodDb : Option (List MoodRow)) (habitDb : Option (List HabitRow))
    (insightDb : Option (List MoodInsightRow)) (userId : Nat) (period : String)
    (periodStart periodEnd : Instant)
    (h : getMoodHistoryByDateRange moodDb userId periodStart periodEnd = []) :
    generateInsights moodDb habitDb insightDb userId period periodStart periodEnd =
      (insightDb, .error (.trpc "BAD_REQUEST" (some "No mood data available for this period"))) := by
  unfold generateInsights
  rw [h]
  rfl

/-- C4 witness: a user with no stored moods is rejected. -/
theorem generateInsights_empty_rejects_witness :
    generateInsights (some []) (some []) (some []) 7 "week" ⟨2026, 3, 1, 0⟩ ⟨2026, 3, 31, 86399999⟩ =
      ((some [] : Option (List MoodInsightRow)),
        .error (.trpc "BAD_REQUEST" (some "No mood data available for this period"))) :=
  generateInsights_empty_rejects (some []) (some []) (some []) 7 "week" _ _ rfl

/-- C6, counterexample: with the storage handle null, the day-bucket
lookup returns exactly the same `undefined` a not-found lookup returns —
the caller cannot distinguish storage unreachable from no record, and no
hard failure is surfaced. -/
theorem lookup_unavailable_indistinct_counterexample :
    getMoodHistoryByDate none 1 ⟨2026, 1, 1, 0⟩ = none ∧
    getMoodHistoryByDate (some []) 1 ⟨2026, 1, 1, 0⟩ = none := by
  exact ⟨rfl, rfl⟩

/-- C6, amended: with storage unavailable, the write operations (both
upserts, habit/diary updates, insight persistence) throw the hard
"Database not available" failure, but the day-bucket lookup returns
`undefined` and the range query returns `[]` — identical to the
no-record results — and insight generation reports BAD_REQUEST "no mood
data" rather than an unavailability error. -/
theorem storage_unavailable_behavior :
    (∀ (nextId userId : Nat) (d : Instant) (m : String) (i : ℚ) (nt : Option String),
        upsertMoodHistory none nextId userId d m i nt =
          .error (.thrown "Database not available")) ∧
    (∀ (nextId habitId userId : Nat) (d : Instant) (c : Bool) (now : Instant),
        upsertHabitCompletion none nextId habitId userId d c now =
          .error (.thrown "Database not available")) ∧
    (∀ (i : MoodInsightRow), createMoodInsight none i = .error (.thrown "Database not available")) ∧
    (∀ (id : Nat) (u : HabitUpdate), updateHabit none id u = .error (.thrown "Database not available")) ∧
    (∀ (id : Nat) (t c : Option String),
        updateDiaryEntry none id t c = .error (.thrown "Database not available")) ∧
    (∀ (userId : Nat) (d : Instant), getMoodHistoryByDate none userId d = none) ∧
    (∀ (userId : Nat) (s e : Instant), getMoodHistoryByDateRange none userId s e = []) ∧
    (∀ (habitDb : Option (List HabitRow)) (userId : Nat) (p : String) (ps pe : Instant),
        generateInsights none habitDb none userId p ps pe =
          (none, .error (.trpc "BAD_REQUEST" (some "No mood data available for this period")))) := by
  exact ⟨fun _ _ _ _ _ _ => rfl, fun _ _ _ _ _ _ => rfl, fun _ => rfl, fun _ _ => rfl,
         fun _ _ _ => rfl, fun _ _ => rfl, fun _ _ _ => rfl, fun _ _ _ _ _ => rfl⟩

/-- C7, counterexample: user 1 updates habit 1, which belongs to user 2;
the mutation succeeds and rewrites the stored name — no
Conflict/Forbidden rejection occurs and the stored state changes. -/
theorem habit_update_cross_user_counterexample :
    habitsUpdate (some [⟨1, 2, "Run", none, none, none, ⟨2026, 1, 1, 0⟩, 1⟩]) 1 1
        (some "Hacked") none none none =
      (some [⟨1, 2, "Hacked", none, none, none, ⟨2026, 1, 1, 0⟩, 1⟩], .ok ()) ∧
    (2 : Nat) ≠ 1 := by
  exact ⟨rfl, by decide⟩

/-- C9, counterexample: `mood.record` accepts intensity 11/2 = 5.5,
which is not an integer, for a known category — the schema bounds the
number but never requires integrality. -/
theorem mood_record_accepts_noninteger_counterexample :
    moodRecordAccepts "good" (11 / 2) = true ∧ ((11 : ℚ) / 2).den ≠ 1 := by
  constructor
  · simp [moodRecordAccepts, moodCategories]
    norm_num
  · have h : ((11 : ℚ) / 2).den = 2 := by norm_num
    omega

/-- C9, amended: the `mood.record` schema accepts exactly the inputs
whose category is one of the five known categories and whose intensity
is a number in [1, 10] (integrality is not required); a rejected input
leaves the store unchanged and produces the validation error before the
upsert runs. -/
theorem mood_record_validation :
    (∀ (c : String) (q : ℚ),
        moodRecordAccepts c q = true ↔ (c ∈ moodCategories ∧ 1 ≤ q ∧ q ≤ 10)) ∧
    (∀ (db : Option (List MoodRow)) (nextId userId : Nat) (d : Instant) (c : String) (q : ℚ)
        (nt : Option String), moodRecordAccepts c q = false →
        moodRecord db nextId userId d c q nt = (db, .error (.trpc "BAD_REQUEST" none))) := by
  constructor
  · intro c q
    simp [moodRecordAccepts, Bool.and_eq_true, decide_eq_true_iff, List.contains_iff_exists_mem_beq]
    tauto
  · intro db nextId userId d c q nt h
    unfold moodRecord
    rw [h]
    simp

/-- C9 witness: a category outside the enumeration is rejected with the
store untouched. -/
theorem mood_record_validation_witness :
    moodRecord (some []) 1 7 ⟨2026, 3, 10, 0⟩ "meh" 5 none =
      ((some [] : Option (List MoodRow)), .error (.trpc "BAD_REQUEST" none)) :=
  mood_record_validation.2 (some []) 1 7 ⟨2026, 3, 10, 0⟩ "meh" 5 none
    (by simp [moodRecordAccepts, moodCategories])

/-- C7, amended: `diary.update` rejects with FORBIDDEN, before any
mutation, a request whose target entry id belongs to another user; but
`habits.update` and `habits.archive` never consult the caller's
identity — the update is applied to the row with the given id no matter
who owns it, so a cross-user habit mutation proceeds and changes stored
state. -/
theorem ownership_checks :
    (∀ (db : Option (List HabitRow)) (caller1 caller2 id : Nat)
        (name description color icon : Option String),
        habitsUpdate db caller1 id name description color icon =
          habitsUpdate db caller2 id name description color icon) ∧
    (∀ (db : Option (List HabitRow)) (caller1 caller2 id : Nat),
        habitsArchive db caller1 id = habitsArchive db caller2 id) ∧
    (∀ (rows : List HabitRow) (caller id : Nat) (nm : String),
        habitsUpdate (some rows) caller id (some nm) none none none =
          (some (rows.map (fun r => if r.id == id then { r with name := nm } else r)), .ok ())) ∧
    (∀ (rows : List DiaryRow) (caller : Nat) (now : Instant) (id : Nat)
        (title content : Option String),
        (∀ tgt ∈ rows, tgt.id = id → tgt.userId ≠ caller) →
        diaryUpdate (some rows) caller now id title content =
          (some rows, .error (.trpc "FORBIDDEN" none))) := by
  refine ⟨fun _ _ _ _ _ _ _ _ => rfl, fun _ _ _ _ => rfl, fun rows caller id nm => rfl, ?_⟩
  intro rows caller now id title content hown
  unfold diaryUpdate
  cases hfind : getDiaryEntryByDate (some rows) caller now with
  | none => rfl
  | some entry =>
      have hmem : entry ∈ rows := List.mem_of_find?_eq_some hfind
      have hpred := List.find?_some hfind
      have huser : entry.userId = caller := by
        simp only [Bool.and_eq_true, beq_iff_eq] at hpred
        exact hpred.1
      have hne : entry.id ≠ id := by
        intro heq
        exact hown entry hmem heq huser
      simp [hne]

/-- C7 witness: a diary update aimed at an entry that belongs to a
different user is rejected without touching the store. -/
theorem ownership_checks_witness :
    diaryUpdate (some [⟨5, 2, none, none, ⟨2026, 3, 10, 0⟩⟩]) 1 ⟨2026, 3, 10, 40000000⟩ 5
        (some "t") none =
      (some [⟨5, 2, none, none, ⟨2026, 3, 10, 0⟩⟩], .error (.trpc "FORBIDDEN" none)) :=
  ownership_checks.2.2.2 [⟨5, 2, none, none, ⟨2026, 3, 10, 0⟩⟩] 1 ⟨2026, 3, 10, 40000000⟩ 5
    (some "t") none (by decide)

theorem moodDayMatches_setMoodFields (u : Nat) (d : Instant) (m : String) (i : ℚ)
    (nt : Option String) (r : MoodRow) :
    moodDayMatches u d (setMoodFields m i nt r) = moodDayMatches u d r := rfl

theorem habitDayMatches_setCompletionFields (h u : Nat) (d : Instant) (c : Bool)
    (now : Instant) (r : HabitCompletionRow) :
    habitDayMatches h u d (setCompletionFields c now r) = habitDayMatches h u d r := rfl

theorem moodDayMatches_congr (u : Nat) {t1 t2 : Instant} (h : sameDay t1 t2 = true)
    (r : MoodRow) : moodDayMatches u t2 r = moodDayMatches u t1 r := by
  simp only [sameDay, Bool.and_eq_true, beq_iff_eq] at h
  unfold moodDayMatches
  rw [inDayWindow_congr r.date h.1.1.symm h.1.2.symm h.2.symm]

theorem habitDayMatches_congr (hid u : Nat) {t1 t2 : Instant} (h : sameDay t1 t2 = true)
    (r : HabitCompletionRow) :
    habitDayMatches hid u t2 r = habitDayMatches hid u t1 r := by
  simp only [sameDay, Bool.and_eq_true, beq_iff_eq] at h
  unfold habitDayMatches
  rw [inDayWindow_congr r.date h.1.1.symm h.1.2.symm h.2.symm]

theorem inDayWindow_self {t : Instant} (ht : t.wf) : inDayWindow t t = true :=
  (inDayWindow_iff_sameDay ht).mpr ⟨rfl, rfl, rfl⟩

theorem inDayWindow_ne_day {t1 t2 : Instant} (ht1 : t1.wf) (hsd : sameDay t1 t2 = false) :
    inDayWindow t2 t1 = false := by
  rw [Bool.eq_false_iff]
  intro hw
  rcases (inDayWindow_iff_sameDay ht1).mp hw with ⟨hy, hm, hd⟩
  rw [show sameDay t1 t2 = true by simp [sameDay, hy, hm, hd]] at hsd
  simp at hsd

/-- Two same-day mood upserts: the second one updates the row the first
one inserted, so the day bucket of `t1` holds exactly one row, carrying
the second payload and the first call's original date. -/
theorem upsertMood_twice_same_day (moods : List MoodRow) (n1 n2 userId : Nat)
    (t1 t2 : Instant) (m1 m2 : String) (i1 i2 : ℚ) (nt1 : Option String) (nt2 : String)
    (ht1 : t1.wf) (hsd : sameDay t1 t2 = true)
    (hfresh : ∀ r ∈ moods, moodDayMatches userId t1 r = false) :
    (upsertMoodHistoryList (upsertMoodHistoryList moods n1 userId t1 m1 i1 nt1)
        n2 userId t2 m2 i2 (some nt2)).filter (moodDayMatches userId t1) =
      [⟨n1, userId, t1, some m2, some i2, some nt2⟩] := by
  have hfind1 : moods.find? (moodDayMatches userId t1) = none :=
    List.find?_eq_none.mpr (fun r hr => by simp [hfresh r hr])
  have hrow1 : moodDayMatches userId t1 (⟨n1, userId, t1, some m1, some i1, nt1⟩ : MoodRow) = true := by
    simp [moodDayMatches, inDayWindow_self ht1]
  have hup1 : upsertMoodHistoryList moods n1 userId t1 m1 i1 nt1 =
      moods ++ [⟨n1, userId, t1, some m1, some i1, nt1⟩] := by
    unfold upsertMoodHistoryList
    rw [hfind1]
  have hp2 : moodDayMatches userId t2 (⟨n1, userId, t1, some m1, some i1, nt1⟩ : MoodRow) = true := by
    rw [moodDayMatches_congr userId hsd]
    exact hrow1
  have hfind2 : (moods ++ [(⟨n1, userId, t1, some m1, some i1, nt1⟩ : MoodRow)]).find?
      (moodDayMatches userId t2) = some ⟨n1, userId, t1, some m1, some i1, nt1⟩ := by
    rw [List.find?_append]
    have hnone : moods.find? (moodDayMatches userId t2) = none :=
      List.find?_eq_none.mpr (fun r hr => by
        rw [moodDayMatches_congr userId hsd r]
        simp [hfresh r hr])
    rw [hnone, Option.none_or]
    exact List.find?_cons_of_pos _ hp2
  rw [hup1]
  unfold upsertMoodHistoryList
  rw [hfind2]
  rw [List.filter_map]
  have hcomp : ∀ r ∈ moods ++ [(⟨n1, userId, t1, some m1, some i1, nt1⟩ : MoodRow)],
      (moodDayMatches userId t1 ∘
        (fun r => if r.id == (⟨n1, userId, t1, some m1, some i1, nt1⟩ : MoodRow).id
                  then setMoodFields m2 i2 (some nt2) r else r)) r =
      moodDayMatches userId t1 r := by
    intro r _
    by_cases h : r.id = n1 <;> simp [h, moodDayMatches_setMoodFields]
  rw [List.filter_congr hcomp]
  rw [List.filter_append]
  rw [List.filter_eq_nil_iff.mpr (fun r hr => by simp [hfresh r hr])]
  simp [hrow1, setMoodFields]

/-- Two mood upserts on different calendar days both insert: the store
gains two distinct rows, each carrying its own call's date and payload. -/
theorem upsertMood_twice_diff_days (moods : List MoodRow) (n1 n2 userId : Nat)
    (t1 t2 : Instant) (m1 m2 : String) (i1 i2 : ℚ) (nt1 nt2 : Option String)
    (ht1 : t1.wf) (hsd : sameDay t1 t2 = false)
    (hf1 : ∀ r ∈ moods, moodDayMatches userId t1 r = false)
    (hf2 : ∀ r ∈ moods, moodDayMatches userId t2 r = false) :
    upsertMoodHistoryList (upsertMoodHistoryList moods n1 userId t1 m1 i1 nt1)
        n2 userId t2 m2 i2 nt2 =
      moods ++ [⟨n1, userId, t1, some m1, some i1, nt1⟩,
                ⟨n2, userId, t2, some m2, some i2, nt2⟩] := by
  have hfind1 : moods.find? (moodDayMatches userId t1) = none :=
    List.find?_eq_none.mpr (fun r hr => by simp [hf1 r hr])
  have hup1 : upsertMoodHistoryList moods n1 userId t1 m1 i1 nt1 =
      moods ++ [⟨n1, userId, t1, some m1, some i1, nt1⟩] := by
    unfold upsertMoodHistoryList
    rw [hfind1]
  have hp2 : moodDayMatches userId t2 (⟨n1, userId, t1, some m1, some i1, nt1⟩ : MoodRow) = false := by
    simp [moodDayMatches, inDayWindow_ne_day ht1 hsd]
  have hfind2 : (moods ++ [(⟨n1, userId, t1, some m1, some i1, nt1⟩ : MoodRow)]).find?
      (moodDayMatches userId t2) = none := by
    rw [List.find?_append]
    rw [List.find?_eq_none.mpr (fun r hr => by simp [hf2 r hr]), Option.none_or]
    exact List.find?_eq_none.mpr (fun x hx => by
      have hx2 := List.mem_singleton.mp hx
      subst hx2
      simp [hp2])
  rw [hup1]
  unfold upsertMoodHistoryList
  rw [hfind2, List.append_assoc]
  rfl

/-- Two same-day habit-completion upserts: the second updates the row
the first inserted; the surviving row carries the second completion flag
and its freshly stamped (or cleared) completion timestamp. -/
theorem upsertHabit_twice_same_day (compls : List HabitCompletionRow)
    (n1 n2 habitId userId : Nat) (t1 t2 now1 now2 : Instant) (c1 c2 : Bool)
    (ht1 : t1.wf) (hsd : sameDay t1 t2 = true)
    (hfresh : ∀ r ∈ compls, habitDayMatches habitId userId t1 r = false) :
    (upsertHabitCompletionList (upsertHabitCompletionList compls n1 habitId userId t1 c1 now1)
        n2 habitId userId t2 c2 now2).filter (habitDayMatches habitId userId t1) =
      [⟨n1, habitId, userId, t1, if c2 then 1 else 0, if c2 then some now2 else none⟩] := by
  have hfind1 : compls.find? (habitDayMatches habitId userId t1) = none :=
    List.find?_eq_none.mpr (fun r hr => by simp [hfresh r hr])
  have hrow1 : habitDayMatches habitId userId t1
      (⟨n1, habitId, userId, t1, if c1 then 1 else 0, if c1 then some now1 else none⟩ :
        HabitCompletionRow) = true := by
    simp [habitDayMatches, inDayWindow_self ht1]
  have hup1 : upsertHabitCompletionList compls n1 habitId userId t1 c1 now1 =
      compls ++ [⟨n1, habitId, userId, t1, if c1 then 1 else 0,
                  if c1 then some now1 else none⟩] := by
    unfold upsertHabitCompletionList
    rw [hfind1]
  have hp2 : habitDayMatches habitId userId t2
      (⟨n1, habitId, userId, t1, if c1 then 1 else 0, if c1 then some now1 else none⟩ :
        HabitCompletionRow) = true := by
    rw [habitDayMatches_congr habitId userId hsd]
    exact hrow1
  have hfind2 : (compls ++ [(⟨n1, habitId, userId, t1, if c1 then 1 else 0,
      if c1 then some now1 else none⟩ : HabitCompletionRow)]).find?
      (habitDayMatches habitId userId t2) =
      some ⟨n1, habitId, userId, t1, if c1 then 1 else 0, if c1 then some now1 else none⟩ := by
    rw [List.find?_append]
    rw [List.find?_eq_none.mpr (fun r hr => by
          rw [habitDayMatches_congr habitId userId hsd r]
          simp [hfresh r hr]),
        Option.none_or]
    exact List.find?_cons_of_pos _ hp2
  rw [hup1]
  unfold upsertHabitCompletionList
  rw [hfind2]
  rw [List.filter_map]
  have hcomp : ∀ r ∈ compls ++ [(⟨n1, habitId, userId, t1, if c1 then 1 else 0,
      if c1 then some now1 else none⟩ : HabitCompletionRow)],
      (habitDayMatches habitId userId t1 ∘
        (fun r => if r.id == (⟨n1, habitId, userId, t1, if c1 then 1 else 0,
                    if c1 then some now1 else none⟩ : HabitCompletionRow).id
                  then setCompletionFields c2 now2 r else r)) r =
      habitDayMatches habitId userId t1 r := by
    intro r _
    by_cases h : r.id = n1 <;> simp [h, habitDayMatches_setCompletionFields]
  rw [List.filter_congr hcomp]
  rw [List.filter_append]
  rw [List.filter_eq_nil_iff.mpr (fun r hr => by simp [hfresh r hr])]
  simp [hrow1, setCompletionFields]

/-- Two habit-completion upserts on different calendar days both insert. -/
theorem upsertHabit_twice_diff_days (compls : List HabitCompletionRow)
    (n1 n2 habitId userId : Nat) (t1 t2 now1 now2 : Instant) (c1 c2 : Bool)
    (ht1 : t1.wf) (hsd : sameDay t1 t2 = false)
    (hf1 : ∀ r ∈ compls, habitDayMatches habitId userId t1 r = false)
    (hf2 : ∀ r ∈ compls, habitDayMatches habitId userId t2 r = false) :
    upsertHabitCompletionList (upsertHabitCompletionList compls n1 habitId userId t1 c1 now1)
        n2 habitId userId t2 c2 now2 =
      compls ++ [⟨n1, habitId, userId, t1, if c1 then 1 else 0, if c1 then some now1 else none⟩,
                 ⟨n2, habitId, userId, t2, if c2 then 1 else 0, if c2 then some now2 else none⟩] := by
  have hfind1 : compls.find? (habitDayMatches habitId userId t1) = none :=
    List.find?_eq_none.mpr (fun r hr => by simp [hf1 r hr])
  have hup1 : upsertHabitCompletionList compls n1 habitId userId t1 c1 now1 =
      compls ++ [⟨n1, habitId, userId, t1, if c1 then 1 else 0,
                  if c1 then some now1 else none⟩] := by
    unfold upsertHabitCompletionList
    rw [hfind1]
  have hp2 : habitDayMatches habitId userId t2
      (⟨n1, habitId, userId, t1, if c1 then 1 else 0, if c1 then some now1 else none⟩ :
        HabitCompletionRow) = false := by
    simp [habitDayMatches, inDayWindow_ne_day ht1 hsd]
  have hfind2 : (compls ++ [(⟨n1, habitId, userId, t1, if c1 then 1 else 0,
      if c1 then some now1 else none⟩ : HabitCompletionRow)]).find?
      (habitDayMatches habitId userId t2) = none := by
    rw [List.find?_append]
    rw [List.find?_eq_none.mpr (fun r hr => by simp [hf2 r hr]), Option.none_or]
    exact List.find?_eq_none.mpr (fun x hx => by
      have hx2 := List.mem_singleton.mp hx
      subst hx2
      simp [hp2])
  rw [hup1]
  unfold upsertHabitCompletionList
  rw [hfind2, List.append_assoc]
  rfl

/-- Every habit-completion upsert with `completed = true` leaves a row
in the day bucket stamped with the completion timestamp. -/
theorem upsertHabit_true_stamps (compls : List HabitCompletionRow) (n habitId userId : Nat)
    (d now : Instant) (hd : d.wf) :
    ∃ r ∈ upsertHabitCompletionList compls n habitId userId d true now,
      habitDayMatches habitId userId d r = true ∧ r.completed = 1 ∧ r.completedAt = some now := by
  unfold upsertHabitCompletionList
  cases hfind : compls.find? (habitDayMatches habitId userId d) with
  | none =>
      refine ⟨⟨n, habitId, userId, d, 1, some now⟩, ?_, ?_, rfl, rfl⟩
      · simp
      · simp [habitDayMatches, inDayWindow_self hd]
  | some ex =>
      have hex : habitDayMatches habitId userId d ex = true := List.find?_some hfind
      have hmem : ex ∈ compls := List.mem_of_find?_eq_some hfind
      refine ⟨setCompletionFields true now ex, ?_, ?_, rfl, rfl⟩
      · have himg : (fun r => if r.id == ex.id then setCompletionFields true now r else r) ex =
            setCompletionFields true now ex := by simp
        exact himg ▸ List.mem_map_of_mem _ hmem
      · rw [habitDayMatches_setCompletionFields]
        exact hex

theorem sameDay_self (t : Instant) : sameDay t t = true := by simp [sameDay]

/-- C1: for each owning key, two upserts on the same local calendar day
(starting from a store with no record in that day bucket) leave exactly
one row for that key and day, carrying the second call's payload and the
first call's original date; two upserts on different calendar days
insert two distinct rows. -/
theorem upsert_day_bucket_once :
    (∀ (moods : List MoodRow) (n1 n2 userId : Nat) (t1 t2 : Instant) (m1 m2 : String)
        (i1 i2 : ℚ) (nt1 : Option String) (nt2 : String),
        t1.wf → sameDay t1 t2 = true →
        (∀ r ∈ moods, moodDayMatches userId t1 r = false) →
        (upsertMoodHistoryList (upsertMoodHistoryList moods n1 userId t1 m1 i1 nt1)
            n2 userId t2 m2 i2 (some nt2)).filter (moodDayMatches userId t1) =
          [⟨n1, userId, t1, some m2, some i2, some nt2⟩]) ∧
    (∀ (compls : List HabitCompletionRow) (n1 n2 habitId userId : Nat)
        (t1 t2 now1 now2 : Instant) (c1 c2 : Bool),
        t1.wf → sameDay t1 t2 = true →
        (∀ r ∈ compls, habitDayMatches habitId userId t1 r = false) →
        (upsertHabitCompletionList (upsertHabitCompletionList compls n1 habitId userId t1 c1 now1)
            n2 habitId userId t2 c2 now2).filter (habitDayMatches habitId userId t1) =
          [⟨n1, habitId, userId, t1, if c2 then 1 else 0, if c2 then some now2 else none⟩]) ∧
    (∀ (moods : List MoodRow) (n1 n2 userId : Nat) (t1 t2 : Instant) (m1 m2 : String)
        (i1 i2 : ℚ) (nt1 nt2 : Option String),
        t1.wf → sameDay t1 t2 = false →
        (∀ r ∈ moods, moodDayMatches userId t1 r = false) →
        (∀ r ∈ moods, moodDayMatches userId t2 r = false) →
        upsertMoodHistoryList (upsertMoodHistoryList moods n1 userId t1 m1 i1 nt1)
            n2 userId t2 m2 i2 nt2 =
          moods ++ [⟨n1, userId, t1, some m1, some i1, nt1⟩,
                    ⟨n2, userId, t2, some m2, some i2, nt2⟩] ∧
        (⟨n1, userId, t1, some m1, some i1, nt1⟩ : MoodRow) ≠
          ⟨n2, userId, t2, some m2, some i2, nt2⟩) ∧
    (∀ (compls : List HabitCompletionRow) (n1 n2 habitId userId : Nat)
        (t1 t2 now1 now2 : Instant) (c1 c2 : Bool),
        t1.wf → sameDay t1 t2 = false →
        (∀ r ∈ compls, habitDayMatches habitId userId t1 r = false) →
        (∀ r ∈ compls, habitDayMatches habitId userId t2 r = false) →
        upsertHabitCompletionList (upsertHabitCompletionList compls n1 habitId userId t1 c1 now1)
            n2 habitId userId t2 c2 now2 =
          compls ++ [⟨n1, habitId, userId, t1, if c1 then 1 else 0,
                      if c1 then some now1 else none⟩,
                     ⟨n2, habitId, userId, t2, if c2 then 1 else 0,
                      if c2 then some now2 else none⟩] ∧
        (⟨n1, habitId, userId, t1, if c1 then 1 else 0,
          if c1 then some now1 else none⟩ : HabitCompletionRow) ≠
          ⟨n2, habitId, userId, t2, if c2 then 1 else 0, if c2 then some now2 else none⟩) := by
  refine ⟨?_, ?_, ?_, ?_⟩
  · intro moods n1 n2 userId t1 t2 m1 m2 i1 i2 nt1 nt2 ht1 hsd hfresh
    exact upsertMood_twice_same_day moods n1 n2 userId t1 t2 m1 m2 i1 i2 nt1 nt2 ht1 hsd hfresh
  · intro compls n1 n2 habitId userId t1 t2 now1 now2 c1 c2 ht1 hsd hfresh
    exact upsertHabit_twice_same_day compls n1 n2 habitId userId t1 t2 now1 now2 c1 c2 ht1 hsd hfresh
  · intro moods n1 n2 userId t1 t2 m1 m2 i1 i2 nt1 nt2 ht1 hsd hf1 hf2
    refine ⟨upsertMood_twice_diff_days moods n1 n2 userId t1 t2 m1 m2 i1 i2 nt1 nt2 ht1 hsd hf1 hf2, ?_⟩
    intro heq
    have hdate : t1 = t2 := congrArg MoodRow.date heq
    subst hdate
    rw [sameDay_self] at hsd
    simp at hsd
  · intro compls n1 n2 habitId userId t1 t2 now1 now2 c1 c2 ht1 hsd hf1 hf2
    refine ⟨upsertHabit_twice_diff_days compls n1 n2 habitId userId t1 t2 now1 now2 c1 c2 ht1 hsd hf1 hf2, ?_⟩
    intro heq
    have hdate : t1 = t2 := congrArg HabitCompletionRow.date heq
    subst hdate
    rw [sameDay_self] at hsd
    simp at hsd

/-- C1 witness: two same-day mood upserts into an empty store leave one
row with the second payload and the first call's date. -/
theorem upsert_day_bucket_once_witness :
    (upsertMoodHistoryList (upsertMoodHistoryList [] 1 7 ⟨2026, 3, 10, 30000000⟩ "good" 5 none)
        2 7 ⟨2026, 3, 10, 70000000⟩ "sad" 3 (some "worse")).filter
      (moodDayMatches 7 ⟨2026, 3, 10, 30000000⟩) =
      [⟨1, 7, ⟨2026, 3, 10, 30000000⟩, some "sad", some 3, some "worse"⟩] :=
  upsert_day_bucket_once.1 [] 1 2 7 ⟨2026, 3, 10, 30000000⟩ ⟨2026, 3, 10, 70000000⟩
    "good" "sad" 5 3 none "worse" (by decide) (by decide) (by simp)

/-- C8: toggling a habit completion `true` then `false` on the same day
leaves exactly one row for that (habitId, userId, day) with
completed = 0 and a cleared completion timestamp; any upsert with
`completed = true` leaves a row in the day bucket with a non-null
completion timestamp. -/
theorem habit_toggle_completes_then_clears :
    (∀ (compls : List HabitCompletionRow) (n1 n2 habitId userId : Nat)
        (t1 t2 now1 now2 : Instant),
        t1.wf → sameDay t1 t2 = true →
        (∀ r ∈ compls, habitDayMatches habitId userId t1 r = false) →
        (upsertHabitCompletionList
            (upsertHabitCompletionList compls n1 habitId userId t1 true now1)
            n2 habitId userId t2 false now2).filter (habitDayMatches habitId userId t1) =
          [⟨n1, habitId, userId, t1, 0, none⟩]) ∧
    (∀ (compls : List HabitCompletionRow) (n habitId userId : Nat) (d now : Instant),
        d.wf →
        ∃ r ∈ upsertHabitCompletionList compls n habitId userId d true now,
          habitDayMatches habitId userId d r = true ∧ r.completed = 1 ∧
            r.completedAt = some now) := by
  refine ⟨?_, fun compls n habitId userId d now hd =>
    upsertHabit_true_stamps compls n habitId userId d now hd⟩
  intro compls n1 n2 habitId userId t1 t2 now1 now2 ht1 hsd hfresh
  exact upsertHabit_twice_same_day compls n1 n2 habitId userId t1 t2 now1 now2 true false
    ht1 hsd hfresh

/-- C8 witness: completing then un-completing a habit on one day leaves
a single cleared row. -/
theorem habit_toggle_completes_then_clears_witness :
    (upsertHabitCompletionList
        (upsertHabitCompletionList [] 1 4 7 ⟨2026, 3, 10, 30000000⟩ true ⟨2026, 3, 10, 30000001⟩)
        2 4 7 ⟨2026, 3, 10, 70000000⟩ false ⟨2026, 3, 10, 70000001⟩).filter
      (habitDayMatches 4 7 ⟨2026, 3, 10, 30000000⟩) =
      [⟨1, 4, 7, ⟨2026, 3, 10, 30000000⟩, 0, none⟩] :=
  habit_toggle_completes_then_clears.1 [] 1 2 4 7 ⟨2026, 3, 10, 30000000⟩
    ⟨2026, 3, 10, 70000000⟩ ⟨2026, 3, 10, 30000001⟩ ⟨2026, 3, 10, 70000001⟩
    (by decide) (by decide) (by simp)

/-- C10: the mood range query returns exactly the user's records with
date in the window, ordered by descending date (newest first), and the
persisted distribution of `generateInsights` is the accumulation over
precisely that fetched list (so list order decides which category is
encountered first). -/
theorem mood_range_desc_order :
    (∀ (rows : List MoodRow) (userId : Nat) (s e : Instant),
        (getMoodHistoryByDateRange (some rows) userId s e).Pairwise
          (fun a b => Instant.le b.date a.date = true)) ∧
    (∀ (rows : List MoodRow) (userId : Nat) (s e : Instant) (r : MoodRow),
        r ∈ getMoodHistoryByDateRange (some rows) userId s e ↔
          r ∈ rows ∧ r.userId = userId ∧ s.le r.date = true ∧ r.date.le e = true) ∧
    (∀ (moodDb : Option (List MoodRow)) (habitDb : Option (List HabitRow))
        (idb : List MoodInsightRow) (userId : Nat) (period : String) (ps pe : Instant),
        getMoodHistoryByDateRange moodDb userId ps pe ≠ [] →
        ((generateInsights moodDb habitDb (some idb) userId period ps pe).2).map
            (fun r => r.moodDistribution) =
          Except.ok (moodCountsOf (getMoodHistoryByDateRange moodDb userId ps pe))) := by
  refine ⟨?_, ?_, ?_⟩
  · intro rows userId s e
    have h := pairwise_sortStable (fun a b : MoodRow => Instant.le b.date a.date)
      (fun a b : MoodRow => (Instant.le_total a.date b.date).symm)
      (fun (a b c : MoodRow) h1 h2 => Instant.le_trans h2 h1)
      (rows.filter (fun r => r.userId == userId && s.le r.date && r.date.le e))
    simpa [getMoodHistoryByDateRange] using h
  · intro rows userId s e r
    simp only [getMoodHistoryByDateRange, mem_sortStable, List.mem_filter,
      Bool.and_eq_true, beq_iff_eq]
    tauto
  · intro moodDb habitDb idb userId period ps pe hne
    simp only [generateInsights]
    rw [if_neg (by simpa using hne)]
    rfl

/-- C10 witness: a concrete three-row store is returned newest first. -/
theorem mood_range_desc_order_witness :
    ((generateInsights
        (some [⟨1, 7, ⟨2026, 3, 12, 36000000⟩, some "good", some 7, none⟩,
               ⟨2, 7, ⟨2026, 3, 11, 50000000⟩, some "sad", some 5, none⟩])
        (some []) (some []) 7 "week" ⟨2026, 3, 1, 0⟩ ⟨2026, 3, 31, 86399999⟩).2).map
      (fun r => r.moodDistribution) =
      Except.ok (moodCountsOf (getMoodHistoryByDateRange
        (some [⟨1, 7, ⟨2026, 3, 12, 36000000⟩, some "good", some 7, none⟩,
               ⟨2, 7, ⟨2026, 3, 11, 50000000⟩, some "sad", some 5, none⟩])
        7 ⟨2026, 3, 1, 0⟩ ⟨2026, 3, 31, 86399999⟩)) :=
  mood_range_desc_order.2.2
    (some [⟨1, 7, ⟨2026, 3, 12, 36000000⟩, some "good", some 7, none⟩,
           ⟨2, 7, ⟨2026, 3, 11, 50000000⟩, some "sad", some 5, none⟩])
    (some []) [] 7 "week" ⟨2026, 3, 1, 0⟩ ⟨2026, 3, 31, 86399999⟩ (by decide)

theorem lookup_map_upd {β : Type} (l : List (String × β)) (k c : String) (f : β → β) :
    ((l.map (fun e => if e.1 = k then (e.1, f e.2) else e)).lookup c) =
      if c = k then (l.lookup c).map f else l.lookup c := by
  induction l with
  | nil => by_cases h : c = k <;> simp [h]
  | cons e es ih =>
      cases e with
      | mk ek ev =>
          simp only [List.map_cons]
          by_cases hek : ek = k
          · rw [if_pos hek]
            by_cases hec : c = ek
            · subst hec
              subst hek
              simp [List.lookup]
            · have hck : ¬c = k := fun h => hec (h.trans hek.symm)
              simp [List.lookup, beq_false_of_ne hec, hck, ih]
          · rw [if_neg hek]
            by_cases hec : c = ek
            · subst hec
              have hck : ¬c = k := hek
              simp [List.lookup, hck]
            · simp [List.lookup, beq_false_of_ne hec, ih]

theorem lookup_append_or {β : Type} (l1 l2 : List (String × β)) (c : String) :
    (l1 ++ l2).lookup c = (l1.lookup c).or (l2.lookup c) := by
  induction l1 with
  | nil => simp
  | cons e es ih =>
      cases e with
      | mk ek ev =>
          by_cases hec : c = ek
          · subst hec
            simp [List.lookup]
          · simp [List.lookup, beq_false_of_ne hec, ih]

theorem any_key_iff_lookup {β : Type} (l : List (String × β)) (k : String) :
    l.any (fun e => e.1 == k) = true ↔ ∃ v, l.lookup k = some v := by
  induction l with
  | nil => simp
  | cons e es ih =>
      cases e with
      | mk ek ev =>
          by_cases hek : k = ek
          · subst hek
            simp [List.lookup]
          · simp [List.lookup, beq_false_of_ne hek, beq_false_of_ne (Ne.symm hek), ih]

theorem bumpBy_lookup (l : List (String × ℚ)) (k c : String) (v : ℚ) :
    (bumpBy l k v).lookup c =
      if c = k then some ((l.lookup k).getD 0 + v) else l.lookup c := by
  unfold bumpBy
  by_cases hany : l.any (fun e => e.1 == k) = true
  · rw [if_pos hany]
    rcases (any_key_iff_lookup l k).mp hany with ⟨w, hw⟩
    rw [lookup_map_upd l k c (fun x => x + v)]
    by_cases hck : c = k
    · subst hck
      simp [hw]
    · simp [hck]
  · rw [if_neg hany]
    rw [lookup_append_or]
    have hnone : l.lookup k = none := by
      cases hlk : l.lookup k with
      | none => rfl
      | some w => exact absurd ((any_key_iff_lookup l k).mpr ⟨w, hlk⟩) hany
    by_cases hck : c = k
    · subst hck
      simp [hnone, List.lookup]
    · simp [List.lookup, hck, beq_false_of_ne hck]

theorem bump_lookup (l : List (String × Nat)) (k c : String) :
    (bump l k).lookup c =
      if c = k then some ((l.lookup k).getD 0 + 1) else l.lookup c := by
  unfold bump
  by_cases hany : l.any (fun e => e.1 == k) = true
  · rw [if_pos hany]
    rcases (any_key_iff_lookup l k).mp hany with ⟨w, hw⟩
    rw [lookup_map_upd l k c (fun x => x + 1)]
    by_cases hck : c = k
    · subst hck
      simp [hw]
    · simp [hck]
  · rw [if_neg hany]
    rw [lookup_append_or]
    have hnone : l.lookup k = none := by
      cases hlk : l.lookup k with
      | none => rfl
      | some w => exact absurd ((any_key_iff_lookup l k).mpr ⟨w, hlk⟩) hany
    by_cases hck : c = k
    · subst hck
      simp [hnone, List.lookup]
    · simp [List.lookup, hck, beq_false_of_ne hck]

theorem clientCounts_fold (moods : List MoodRow) (c : String) (hc : c ≠ "") :
    ∀ (init : List (String × Nat)) (v : Nat), init.lookup c = some v →
      ((moods.foldl (fun cnt m => match m.mood with
          | some s => if s = "" then cnt else bump cnt s
          | none => cnt) init).lookup c) =
        some (v + moods.countP (fun m => m.mood == some c)) := by
  induction moods with
  | nil =>
      intro init v hv
      simpa using hv
  | cons m ms ih =>
      intro init v hv
      cases hm : m.mood with
      | none =>
          simp only [List.foldl_cons, List.countP_cons, hm]
          rw [ih init v hv]
          simp
      | some s =>
          by_cases hs : s = ""
          · subst hs
            have hp : ((some "" : Option String) == some c) = false :=
              beq_false_of_ne (fun h => hc ((Option.some.inj h).symm))
            simp only [List.foldl_cons, List.countP_cons, hm, hp]
            simp only [Bool.false_eq_true, if_false, add_zero, reduceIte]
            exact ih init v hv
          · by_cases hsc : s = c
            · subst hsc
              simp only [List.foldl_cons, List.countP_cons, hm, if_neg hs]
              have hb : (bump init s).lookup s = some (v + 1) := by
                rw [bump_lookup, if_pos rfl, hv]
                rfl
              rw [ih (bump init s) (v + 1) hb]
              simp only [beq_iff_eq, Option.some.injEq]
              simp
              omega
            · simp only [List.foldl_cons, List.countP_cons, hm, if_neg hs]
              have hb : (bump init s).lookup c = some v := by
                rw [bump_lookup, if_neg (fun h => hsc h.symm)]
                exact hv
              rw [ih (bump init s) v hb]
              have hp : ((some s : Option String) == some c) = false := by
                simp [hsc]
              simp [hp]

theorem dailyData_fold (moods : List MoodRow) (lb : String) :
    ∀ init : List (String × ℚ),
      ((moods.foldl (fun d m => bumpBy d (dayLabel m.date) (m.moodIntensity.getD 0)) init).lookup lb) =
        match init.lookup lb with
        | some v => some (v + ((moods.filter (fun m => dayLabel m.date == lb)).map
            (fun m => m.moodIntensity.getD 0)).sum)
        | none =>
            if moods.any (fun m => dayLabel m.date == lb) then
              some (((moods.filter (fun m => dayLabel m.date == lb)).map
                (fun m => m.moodIntensity.getD 0)).sum)
            else none := by
  induction moods with
  | nil =>
      intro init
      simp only [List.foldl_nil, List.filter_nil, List.map_nil, List.sum_nil, List.any_nil]
      cases hv : init.lookup lb <;> simp
  | cons m ms ih =>
      intro init
      by_cases hk : dayLabel m.date = lb
      · have hfilter : (m :: ms).filter (fun m => dayLabel m.date == lb) =
            m :: ms.filter (fun m => dayLabel m.date == lb) := by
          simp [List.filter_cons, hk]
        have hbv : (bumpBy init (dayLabel m.date) (m.moodIntensity.getD 0)).lookup lb =
            some ((init.lookup lb).getD 0 + m.moodIntensity.getD 0) := by
          rw [bumpBy_lookup, if_pos hk.symm, hk]
        simp only [List.foldl_cons]
        rw [ih (bumpBy init (dayLabel m.date) (m.moodIntensity.getD 0)), hbv, hfilter]
        cases hv : init.lookup lb with
        | some v =>
            simp only [Option.getD_some, List.map_cons, List.sum_cons]
            rw [add_assoc]
        | none =>
            have hany : (m :: ms).any (fun m => dayLabel m.date == lb) = true := by
              simp [hk]
            rw [hany]
            simp
      · have hfilter : (m :: ms).filter (fun m => dayLabel m.date == lb) =
            ms.filter (fun m => dayLabel m.date == lb) := by
          simp [List.filter_cons, hk]
        have hany : (m :: ms).any (fun m => dayLabel m.date == lb) =
            ms.any (fun m => dayLabel m.date == lb) := by
          simp [List.any_cons, beq_false_of_ne hk]
        have hbv : (bumpBy init (dayLabel m.date) (m.moodIntensity.getD 0)).lookup lb =
            init.lookup lb := by
          rw [bumpBy_lookup, if_neg (fun h => hk h.symm)]
        simp only [List.foldl_cons]
        rw [ih (bumpBy init (dayLabel m.date) (m.moodIntensity.getD 0)), hbv, hfilter, hany]

theorem lookup_map_pair {β γ : Type} (l : List (String × β)) (f : String × β → γ)
    (lb : String) (s : β) (h : l.lookup lb = some s) :
    (l.map (fun e => (e.1, f e))).lookup lb = some (f (lb, s)) := by
  induction l with
  | nil => simp at h
  | cons e es ih =>
      cases e with
      | mk ek ev =>
          by_cases hek : lb = ek
          · subst hek
            simp [List.lookup] at h ⊢
            rw [← h]
          · simp [List.lookup, beq_false_of_ne hek] at h ⊢
            exact ih h

/-- C5, counterexample: two mood records on genuinely different calendar
days — Oct 12 2025 and Oct 12 2026 — share the display grouping label
"Oct 12" (the label carries no year), so the trend chart merges them
into a single group averaging (4+8)/2 = 6, contradicting the claim that
records on different calendar days are never merged. -/
theorem trend_label_merges_years_counterexample :
    sameDay ⟨2025, 10, 12, 0⟩ ⟨2026, 10, 12, 0⟩ = false ∧
    trendData [⟨1, 7, ⟨2025, 10, 12, 0⟩, some "good", some 4, none⟩,
               ⟨2, 7, ⟨2026, 10, 12, 0⟩, some "good", some 8, none⟩] = [("Oct 12", 6)] := by
  refine ⟨by decide, ?_⟩
  have h1 : trendData [⟨1, 7, ⟨2025, 10, 12, 0⟩, some "good", some 4, none⟩,
      ⟨2, 7, ⟨2026, 10, 12, 0⟩, some "good", some 8, none⟩] =
      [("Oct 12", roundTo1 ((4 + 8 : ℚ) / ((2 : Nat) : ℚ)))] := rfl
  rw [h1]
  have h2 : roundTo1 ((4 + 8 : ℚ) / ((2 : Nat) : ℚ)) = 6 := by
    unfold roundTo1
    norm_num
  rw [h2]

/-- C5, amended: the display aggregation (a) reports a count for each of
the five known categories, 0 included, equal to the number of records in
that category; (b) groups per-day averages by the month+day label of the
record's date — records on the same calendar day always share a group,
but the label omits the year, so days exactly a year apart merge — each
group holding the intensity sum of its records, reported as sum/count
rounded to one decimal place. -/
theorem client_aggregation_by_label :
    (∀ (moods : List MoodRow) (c : String), c ∈ moodCategories →
        (clientMoodCounts moods).lookup c =
          some (moods.countP (fun m => m.mood == some c))) ∧
    (∀ t1 t2 : Instant, sameDay t1 t2 = true → dayLabel t1 = dayLabel t2) ∧
    (∀ (moods : List MoodRow) (lb : String),
        (dailyData moods).lookup lb =
          if moods.any (fun m => dayLabel m.date == lb) then
            some (((moods.filter (fun m => dayLabel m.date == lb)).map
              (fun m => m.moodIntensity.getD 0)).sum)
          else none) ∧
    (∀ (moods : List MoodRow) (lb : String) (s : ℚ),
        (dailyData moods).lookup lb = some s →
        (trendData moods).lookup lb =
          some (roundTo1 (s /
            (((moods.filter (fun m => dayLabel m.date == lb)).length : ℚ))))) := by
  refine ⟨?_, ?_, ?_, ?_⟩
  · intro moods c hmem
    simp only [moodCategories, List.mem_cons, List.mem_singleton] at hmem
    have hrun : ∀ (hc : c ≠ "") (hv : clientInitialCounts.lookup c = some 0),
        (clientMoodCounts moods).lookup c =
          some (moods.countP (fun m => m.mood == some c)) := by
      intro hc hv
      have h := clientCounts_fold moods c hc clientInitialCounts 0 hv
      simpa [clientMoodCounts] using h
    rcases hmem with rfl | rfl | rfl | rfl | rfl | h
    · exact hrun (by decide) (by decide)
    · exact hrun (by decide) (by decide)
    · exact hrun (by decide) (by decide)
    · exact hrun (by decide) (by decide)
    · exact hrun (by decide) (by decide)
    · simp at h
  · intro t1 t2 h
    simp only [sameDay, Bool.and_eq_true, beq_iff_eq] at h
    unfold dayLabel
    rw [h.1.2, h.2]
  · intro moods lb
    have h := dailyData_fold moods lb []
    simpa [dailyData] using h
  · intro moods lb s h
    have hany : moods.any (fun m => dayLabel m.date == lb) = true := by
      have hd := dailyData_fold moods lb []
      rw [show ([] : List (String × ℚ)).lookup lb = none from rfl] at hd
      rw [dailyData] at h
      rw [h] at hd
      by_contra hfalse
      rw [Bool.not_eq_true] at hfalse
      rw [hfalse] at hd
      simp at hd
    have hlen : (moods.filter (fun m => dayLabel m.date == lb)).length ≠ 0 := by
      rcases List.any_eq_true.mp hany with ⟨m, hm, hpm⟩
      have : m ∈ moods.filter (fun m => dayLabel m.date == lb) :=
        List.mem_filter.mpr ⟨hm, hpm⟩
      intro hzero
      rw [List.length_eq_zero.mp hzero] at this
      simp at this
    have hmap := lookup_map_pair (dailyData moods)
      (fun e => roundTo1 (e.2 /
        (let c := (moods.filter (fun m : MoodRow => dayLabel m.date == e.1)).length
         if c = 0 then 1 else (c : ℚ)))) lb s h
    simp only [trendData]
    rw [hmap]
    simp only [if_neg hlen]

/-- C5 witness: the per-category count of an empty mood list is reported
as 0 for a known category. -/
theorem client_aggregation_by_label_witness :
    (clientMoodCounts []).lookup "good" =
      some (List.countP (fun m : MoodRow => m.mood == some "good") ([] : List MoodRow)) :=
  client_aggregation_by_label.1 [] "good" (by decide)

end DigitalTere
